import Mathlib

/-!
Verification of the feed-discovery and config-persistence core of the
pick-a-zoo repository (`src/pick_a_zoo/core/feed_discovery.py` and
`src/pick_a_zoo/core/feed_manager.py`), shallowly embedded in Lean.

Modelling conventions:
* Pure Python helpers become Lean functions on `String` / `List Char`.
  Python's case-insensitive regex matching over the ASCII patterns used by
  the source is modelled by lower-casing with `Char.toLower`
  (ASCII case folding); `$`-anchoring is modelled as end of string.
* Network I/O (`httpx` HEAD probes) is modelled by passing the outcome of
  the single probe explicitly: either an `HttpResponse` (status code,
  number of redirect hops recorded in `response.history`, Content-Type
  header) or one of the exception classes the source catches
  (`httpx.TimeoutException`, `httpx.ConnectError`, `httpx.NetworkError`,
  any other `httpx.HTTPError`).  `httpx.ConnectError` is a subclass of
  `httpx.NetworkError`; the embedding keeps both constructors because
  `validate_url_accessibility` handles them in separate branches.
* Raising an exception is modelled with `Except`; the exception hierarchy
  `FeedDiscoveryError` / `URLValidationError` is modelled by the two
  constructors `discoveryError` / `validationError` carrying the technical
  message (the user-facing message of the source is elided; no claim
  depends on it).
-/

namespace PickAZoo

instance {ε α : Type} [DecidableEq ε] [DecidableEq α] : DecidableEq (Except ε α) :=
  fun a b =>
    match a, b with
    | Except.ok x, Except.ok y =>
      if h : x = y then isTrue (by rw [h]) else isFalse (by simp [h])
    | Except.error x, Except.error y =>
      if h : x = y then isTrue (by rw [h]) else isFalse (by simp [h])
    | Except.ok _, Except.error _ => isFalse (by simp)
    | Except.error _, Except.ok _ => isFalse (by simp)

/-- Lower-case every character (models Python `str.lower()` / `re.IGNORECASE`
on the ASCII patterns used by the source). -/
def lowerList (l : List Char) : List Char := l.map Char.toLower

/-- Case-sensitive substring test on character lists (models Python `in`). -/
def csContains (needle : List Char) : List Char → Bool
  | [] => needle.isEmpty
  | c :: t => needle.isPrefixOf (c :: t) || csContains needle t

/-- Case-insensitive prefix test. -/
def clPrefixOf : List Char → List Char → Bool
  | [], _ => true
  | _ :: _, [] => false
  | p :: ps, c :: cs => (p.toLower == c.toLower) && clPrefixOf ps cs

/-- Case-insensitive substring test. -/
def clContains (needle : List Char) : List Char → Bool
  | [] => needle.isEmpty
  | c :: t => clPrefixOf needle (c :: t) || clContains needle t

/-- The decimal digit character for `d < 10`. -/
def natDigitChar (d : Nat) : Char := Char.ofNat (48 + d)

/-- Fuel-driven decimal rendering (most-significant digit first); the fuel
makes the definition structurally recursive so that it reduces inside
`decide` / `rfl` proofs. -/
def natDigitsAux : Nat → Nat → List Char
  | 0, _ => []
  | fuel + 1, n =>
    if n < 10 then [natDigitChar n]
    else natDigitsAux fuel (n / 10) ++ [natDigitChar (n % 10)]

/-- Decimal digit list of a natural number (models Python `str(n)` /
f-string interpolation of an `int`). -/
def natDigits (n : Nat) : List Char := natDigitsAux (n + 1) n

/-- Decimal rendering of a natural number as a `String`. -/
def natRepr (n : Nat) : String := String.mk (natDigits n)

/-- `URLType` enum of `feed_discovery.py`. -/
inductive URLType where
  | DIRECT_STREAM
  | HTML_PAGE
deriving DecidableEq

/-- The exception taxonomy of `feed_discovery.py`: `FeedDiscoveryError` is
the base class, `URLValidationError` a subclass (and `HTMLParseError`
another subclass, not needed for the probing functions).  A raised
exception is modelled by the constructor naming its class, carrying the
technical message. -/
inductive FeedDiscoveryError where
  | discoveryError (message : String)
  | validationError (message : String)
deriving DecidableEq

/-- The fast-path pattern match of `detect_url_type` (source lines
213-227): `re.search` with `re.IGNORECASE` over the seven patterns
`\.m3u8$`, `\.mp4$`, `\.webm$`, `\.mkv$`, `\.flv$`, `rtsp://`, `rtmp://`.
The five extension patterns are `$`-anchored; the two scheme patterns are
unanchored, so `re.search` finds them anywhere in the URL. -/
def direct_stream_match (url : String) : Bool :=
  let u := lowerList url.toList
  List.isSuffixOf ".m3u8".toList u ||
  List.isSuffixOf ".mp4".toList u ||
  List.isSuffixOf ".webm".toList u ||
  List.isSuffixOf ".mkv".toList u ||
  List.isSuffixOf ".flv".toList u ||
  csContains "rtsp://".toList u ||
  csContains "rtmp://".toList u

/-- Follows the spec's words (claim C1): the same pattern set but with
`rtsp://` / `rtmp://` matching only as a scheme prefix at the start of the
URL.  Written for comparison with `direct_stream_match`, which is the
source's behaviour. -/
def spec_direct_stream_match (url : String) : Bool :=
  let u := lowerList url.toList
  List.isSuffixOf ".m3u8".toList u ||
  List.isSuffixOf ".mp4".toList u ||
  List.isSuffixOf ".webm".toList u ||
  List.isSuffixOf ".mkv".toList u ||
  List.isSuffixOf ".flv".toList u ||
  List.isPrefixOf "rtsp://".toList u ||
  List.isPrefixOf "rtmp://".toList u

/-- The observable part of an `httpx` HEAD response: status code, number of
redirect hops (`len(response.history)`), and the Content-Type header. -/
structure HttpResponse where
  statusCode : Nat
  historyLen : Nat
  contentType : Option String
deriving DecidableEq

/-- Outcome of the single HEAD probe a call performs: a response, or one of
the `httpx` exception classes the source distinguishes. -/
inductive NetOutcome where
  | response (r : HttpResponse)
  | timeout
  | connectError
  | networkError
  | otherHttpError
deriving DecidableEq

/-- Content-Type inspection of `detect_url_type` (source lines 243-261):
lower-case the header (absent header treated as ""), `text/html` anywhere
means HTML page, a `video/` or HLS MIME prefix means direct stream,
anything else defaults to HTML page. -/
def contentTypeVerdict (ct : Option String) : URLType :=
  let c := lowerList (ct.getD "").toList
  if csContains "text/html".toList c then URLType.HTML_PAGE
  else if "video/".toList.isPrefixOf c ||
          "application/vnd.apple.mpegurl".toList.isPrefixOf c ||
          "application/x-mpegurl".toList.isPrefixOf c then URLType.DIRECT_STREAM
  else URLType.HTML_PAGE

/-- `detect_url_type` of `feed_discovery.py` (lines 196-286).  The fast
path consults only the URL string; the slow path consults the probe
outcome `net`.  Redirect counts above 5 are a hard `FeedDiscoveryError`;
timeout and network errors raise `URLValidationError`; other HTTP errors
raise the base `FeedDiscoveryError`.  (`httpx.ConnectError` has no
dedicated branch here: it is caught by the `httpx.NetworkError` branch.) -/
def detect_url_type (url : String) (net : NetOutcome) : Except FeedDiscoveryError URLType :=
  if direct_stream_match url then Except.ok URLType.DIRECT_STREAM
  else
    match net with
    | NetOutcome.response r =>
      if r.historyLen > 5 then
        Except.error (FeedDiscoveryError.discoveryError
          ("URL exceeded maximum redirect limit (5): " ++ url))
      else Except.ok (contentTypeVerdict r.contentType)
    | NetOutcome.timeout =>
      Except.error (FeedDiscoveryError.validationError
        ("Timeout while detecting URL type: " ++ url))
    | NetOutcome.connectError =>
      Except.error (FeedDiscoveryError.validationError
        ("Network error while detecting URL type: " ++ url))
    | NetOutcome.networkError =>
      Except.error (FeedDiscoveryError.validationError
        ("Network error while detecting URL type: " ++ url))
    | NetOutcome.otherHttpError =>
      Except.error (FeedDiscoveryError.discoveryError
        ("HTTP error while detecting URL type: " ++ url))

/-- `URLValidationResult` pydantic model of `feed_discovery.py`. -/
structure URLValidationResult where
  is_accessible : Bool
  status_code : Option Nat
  error_message : Option String
  content_type : Option String
deriving DecidableEq

/-- `validate_url_accessibility` of `feed_discovery.py` (lines 429-524).
Every received response produces a result (never an exception): more than
5 recorded redirect hops yield a non-accessible result whose message cites
the hop count; otherwise status codes in [200,300) are accessible and all
others carry `error_message = "HTTP {code}"`.  Timeout, connection,
network and other transport-level `httpx` errors raise
`URLValidationError`.  (The source's `httpx.HTTPStatusError` branch is
unreachable: the function never calls `raise_for_status`.) -/
def validate_url_accessibility (url : String) (net : NetOutcome) :
    Except FeedDiscoveryError URLValidationResult :=
  match net with
  | NetOutcome.response r =>
    if r.historyLen > 5 then
      Except.ok
        { is_accessible := false
          status_code := some r.statusCode
          error_message := some ("URL exceeded maximum redirect limit (5): " ++
            natRepr r.historyLen ++ " redirects")
          content_type := r.contentType }
    else
      let acc := decide (200 ≤ r.statusCode ∧ r.statusCode < 300)
      Except.ok
        { is_accessible := acc
          status_code := some r.statusCode
          error_message := if acc then none else some ("HTTP " ++ natRepr r.statusCode)
          content_type := r.contentType }
  | NetOutcome.timeout =>
    Except.error (FeedDiscoveryError.validationError
      ("Timeout while validating URL: " ++ url))
  | NetOutcome.connectError =>
    Except.error (FeedDiscoveryError.validationError
      ("Connection error while validating URL: " ++ url))
  | NetOutcome.networkError =>
    Except.error (FeedDiscoveryError.validationError
      ("Network error while validating URL: " ++ url))
  | NetOutcome.otherHttpError =>
    Except.error (FeedDiscoveryError.validationError
      ("HTTP error while validating URL: " ++ url))

/-- A Boolean prefix implies the substring test. -/
theorem csContains_of_isPrefixOf (n l : List Char) (h : List.isPrefixOf n l = true) :
    csContains n l = true := by
  cases l with
  | nil =>
    cases n with
    | nil => rfl
    | cons a as => simp [List.isPrefixOf] at h
  | cons c t => simp [csContains, h]

/-- C1, counterexample.  The claim states that the `rtsp://` / `rtmp://`
patterns match only as a scheme prefix at the start of the URL.  The
source uses `re.search`, which matches them anywhere: the URL below has
`rtsp://` only in its query string, yet the fast path fires and
`detect_url_type` returns `DIRECT_STREAM` even in an environment whose
probe would time out (i.e. with no network call observed). -/
theorem detect_rtsp_midstring_counterexample :
    direct_stream_match "http://example.com/watch?feed=rtsp://cam" = true ∧
    spec_direct_stream_match "http://example.com/watch?feed=rtsp://cam" = false ∧
    detect_url_type "http://example.com/watch?feed=rtsp://cam" NetOutcome.timeout =
      Except.ok URLType.DIRECT_STREAM := by
  refine ⟨by decide, by decide, ?_⟩
  simp [detect_url_type, show direct_stream_match "http://example.com/watch?feed=rtsp://cam" =
    true from by decide]

/-- C1, amended.  Every URL matching the source's direct-stream pattern set
(suffixes `.m3u8`, `.mp4`, `.webm`, `.mkv`, `.flv` anchored at the end,
case-insensitively, and `rtsp://` / `rtmp://` anywhere in the string) is
classified `DIRECT_STREAM` with a result independent of the network
environment, i.e. without any network call; moreover every URL matching the
spec's narrower pattern set (schemes as prefixes only) also matches the
source's pattern set. -/
theorem detect_fast_path_no_network (url : String) (net net' : NetOutcome) :
    (direct_stream_match url = true →
      detect_url_type url net = Except.ok URLType.DIRECT_STREAM ∧
      detect_url_type url net = detect_url_type url net') ∧
    (spec_direct_stream_match url = true → direct_stream_match url = true) := by
  constructor
  · intro h
    constructor <;> simp [detect_url_type, h]
  · intro h
    simp only [spec_direct_stream_match, Bool.or_eq_true] at h
    simp only [direct_stream_match, Bool.or_eq_true]
    rcases h with ((((((h | h) | h) | h) | h) | h) | h)
    · exact Or.inl (Or.inl (Or.inl (Or.inl (Or.inl (Or.inl h)))))
    · exact Or.inl (Or.inl (Or.inl (Or.inl (Or.inl (Or.inr h)))))
    · exact Or.inl (Or.inl (Or.inl (Or.inl (Or.inr h))))
    · exact Or.inl (Or.inl (Or.inl (Or.inr h)))
    · exact Or.inl (Or.inl (Or.inr h))
    · exact Or.inl (Or.inr (csContains_of_isPrefixOf _ _ h))
    · exact Or.inr (csContains_of_isPrefixOf _ _ h)

/-- Witness for `detect_fast_path_no_network` at concrete inputs. -/
theorem detect_fast_path_no_network_witness :
    detect_url_type "rtsp://zoo.example/cam1" NetOutcome.timeout =
      Except.ok URLType.DIRECT_STREAM ∧
    detect_url_type "rtsp://zoo.example/cam1" NetOutcome.timeout =
      detect_url_type "rtsp://zoo.example/cam1" NetOutcome.networkError ∧
    direct_stream_match "https://zoo.example/live.M3U8" = true := by
  have h := (detect_fast_path_no_network "rtsp://zoo.example/cam1" NetOutcome.timeout
    NetOutcome.networkError).1 (by decide)
  have h2 := (detect_fast_path_no_network "https://zoo.example/live.M3U8" NetOutcome.timeout
    NetOutcome.timeout).2 (by decide)
  exact ⟨h.1, h.2, h2⟩

/-- C2.  For a probed URL (fast path not taken): a response reporting
exactly 5 redirect hops proceeds normally in both `detect_url_type`
(returning the Content-Type verdict) and `validate_url_accessibility`
(returning the ordinary status-based result); a response reporting 6 or
more hops makes `detect_url_type` fail with a discovery error while
`validate_url_accessibility` returns `is_accessible = false` with an error
message citing the redirect count. -/
theorem redirect_limit_boundary (url : String) (r : HttpResponse)
    (hfast : direct_stream_match url = false) :
    (r.historyLen = 5 →
      detect_url_type url (NetOutcome.response r) =
        Except.ok (contentTypeVerdict r.contentType) ∧
      validate_url_accessibility url (NetOutcome.response r) =
        Except.ok
          { is_accessible := decide (200 ≤ r.statusCode ∧ r.statusCode < 300)
            status_code := some r.statusCode
            error_message := if 200 ≤ r.statusCode ∧ r.statusCode < 300 then none
              else some ("HTTP " ++ natRepr r.statusCode)
            content_type := r.contentType }) ∧
    (6 ≤ r.historyLen →
      detect_url_type url (NetOutcome.response r) =
        Except.error (FeedDiscoveryError.discoveryError
          ("URL exceeded maximum redirect limit (5): " ++ url)) ∧
      validate_url_accessibility url (NetOutcome.response r) =
        Except.ok
          { is_accessible := false
            status_code := some r.statusCode
            error_message := some ("URL exceeded maximum redirect limit (5): " ++
              natRepr r.historyLen ++ " redirects")
            content_type := r.contentType }) := by
  constructor
  · intro h5
    constructor
    · simp [detect_url_type, hfast, h5]
    · simp [validate_url_accessibility, h5]
  · intro h6
    have hgt : r.historyLen > 5 := h6
    constructor
    · simp [detect_url_type, hfast, hgt]
    · simp [validate_url_accessibility, hgt]

/-- Witness for `redirect_limit_boundary` at concrete inputs. -/
theorem redirect_limit_boundary_witness :
    detect_url_type "http://example.com/page"
        (NetOutcome.response ⟨200, 6, some "text/html"⟩) =
      Except.error (FeedDiscoveryError.discoveryError
        "URL exceeded maximum redirect limit (5): http://example.com/page") ∧
    validate_url_accessibility "http://example.com/page"
        (NetOutcome.response ⟨200, 6, some "text/html"⟩) =
      Except.ok
        { is_accessible := false, status_code := some 200
          error_message := some "URL exceeded maximum redirect limit (5): 6 redirects"
          content_type := some "text/html" } ∧
    detect_url_type "http://example.com/page"
        (NetOutcome.response ⟨200, 5, some "text/html"⟩) =
      Except.ok URLType.HTML_PAGE := by
  have h6 := (redirect_limit_boundary "http://example.com/page" ⟨200, 6, some "text/html"⟩
    (by decide)).2 (by decide)
  have h5 := (redirect_limit_boundary "http://example.com/page" ⟨200, 5, some "text/html"⟩
    (by decide)).1 rfl
  exact ⟨h6.1.trans (by decide), h6.2.trans (by decide), h5.1.trans (by decide)⟩

/-- C3.  For every response within the redirect limit: status in [200,300)
yields an accessible result with no error message, anything else a
non-accessible result with message `"HTTP {code}"`.  The validator never
raises for any received response (any status code, any hop count), and it
raises exactly on the timeout / connection / network-layer probe failures,
always with the `URLValidationError` subtype. -/
theorem validate_status_and_errors (url : String) (r : HttpResponse)
    (hredir : r.historyLen ≤ 5) :
    (200 ≤ r.statusCode ∧ r.statusCode < 300 →
      validate_url_accessibility url (NetOutcome.response r) =
        Except.ok
          { is_accessible := true, status_code := some r.statusCode
            error_message := none, content_type := r.contentType }) ∧
    (¬(200 ≤ r.statusCode ∧ r.statusCode < 300) →
      validate_url_accessibility url (NetOutcome.response r) =
        Except.ok
          { is_accessible := false, status_code := some r.statusCode
            error_message := some ("HTTP " ++ natRepr r.statusCode)
            content_type := r.contentType }) ∧
    (∀ r' : HttpResponse, ∃ res,
      validate_url_accessibility url (NetOutcome.response r') = Except.ok res) ∧
    (∀ net : NetOutcome,
      (∃ e, validate_url_accessibility url net = Except.error e) ↔
        (net = NetOutcome.timeout ∨ net = NetOutcome.connectError ∨
         net = NetOutcome.networkError ∨ net = NetOutcome.otherHttpError)) ∧
    (∀ net e, validate_url_accessibility url net = Except.error e →
      ∃ m, e = FeedDiscoveryError.validationError m) := by
  have hngt : ¬ (r.historyLen > 5) := by omega
  refine ⟨?_, ?_, ?_, ?_, ?_⟩
  · intro h
    simp [validate_url_accessibility, hngt, h]
  · intro h
    simp [validate_url_accessibility, hngt, h]
  · intro r'
    by_cases h5 : r'.historyLen > 5 <;> simp [validate_url_accessibility, h5]
  · intro net
    cases net <;> simp [validate_url_accessibility]
    split <;> simp
  · intro net e h
    cases net <;> simp [validate_url_accessibility] at h <;>
      first
        | (exact ⟨_, h.symm⟩)
        | (revert h; split <;> simp)

/-- Witness for `validate_status_and_errors` at concrete inputs (the two
status scenarios of the spec, and a timeout). -/
theorem validate_status_and_errors_witness :
    validate_url_accessibility "http://example.com/a"
        (NetOutcome.response ⟨404, 0, some "text/html"⟩) =
      Except.ok
        { is_accessible := false, status_code := some 404
          error_message := some "HTTP 404", content_type := some "text/html" } ∧
    validate_url_accessibility "http://example.com/a"
        (NetOutcome.response ⟨200, 0, some "video/mp4"⟩) =
      Except.ok
        { is_accessible := true, status_code := some 200
          error_message := none, content_type := some "video/mp4" } ∧
    (∃ m, FeedDiscoveryError.validationError "Timeout while validating URL: http://example.com/a" =
      FeedDiscoveryError.validationError m) := by
  have h1 := (validate_status_and_errors "http://example.com/a" ⟨404, 0, some "text/html"⟩
    (by decide)).2.1 (by decide)
  have h2 := (validate_status_and_errors "http://example.com/a" ⟨200, 0, some "video/mp4"⟩
    (by decide)).1 (by decide)
  have h3 := (validate_status_and_errors "http://example.com/a" ⟨200, 0, none⟩
    (by decide)).2.2.2.2 NetOutcome.timeout
    (FeedDiscoveryError.validationError "Timeout while validating URL: http://example.com/a")
    (by decide)
  exact ⟨h1.trans (by decide), h2.trans (by decide), h3⟩

/-!
## HTML stream extractor (`extract_streams_from_html`, source lines 289-426)

BeautifulSoup's parse of the HTML is modelled by the `Soup` structure
holding exactly what the function consumes: the `<video>` elements (their
`src` and nested `<source>` children, in document order), the top-level
`<source>` elements (`find_all("source", recursive=False)`), the page's
extracted plain text (`soup.get_text()`), the textual content of each
`<script>` element (its declared string if present, else its serialized
form), and the `<iframe>` `src` attributes (which are logged only and
produce no candidates).  `urllib.parse.urljoin` is modelled by a
simplified RFC 3986 resolution covering absolute references,
scheme-relative and host-relative references, and relative paths; the
claims proved below are invariant to its details.  The `re.finditer`
searches for `https?://[^\s"'<>]+\.EXT[^\s"'<>]*` (case-insensitive,
leftmost, non-overlapping, greedy) are implemented directly: a match
starting at a `http://`/`https://` occurrence covers the whole maximal
run of non-excluded characters after the scheme, provided `.EXT` occurs
inside that run at offset at least one.
-/

/-- The Python exception that can escape `extract_streams_from_html`
besides `HTMLParseError`: the srcset handling indexes `[0]` into
`entry.strip().split()`, which raises `IndexError` when the entry is empty
or whitespace-only. -/
inductive PyError where
  | indexError
deriving DecidableEq

/-- `StreamCandidate` pydantic model of `feed_discovery.py`. -/
structure StreamCandidate where
  url : String
  source_type : String
deriving DecidableEq

/-- A parsed `<source>` element: its `src` and `srcset` attributes
(absent attribute = `none`). -/
structure SourceTag where
  src : Option String
  srcset : Option String
deriving DecidableEq

/-- A parsed `<video>` element: its `src` attribute and its nested
`<source>` children in document order. -/
structure VideoTag where
  src : Option String
  sources : List SourceTag
deriving DecidableEq

/-- The BeautifulSoup parse result, as far as the extractor consumes it. -/
structure Soup where
  videos : List VideoTag
  topLevelSources : List SourceTag
  pageText : String
  scripts : List String
  iframes : List String
deriving DecidableEq

/-- Python truthiness of an optional string attribute:
`if attr and isinstance(attr, str)` skips both an absent attribute and an
empty string. -/
def attrTruthy : Option String → Option String
  | some s => if s.isEmpty then none else some s
  | none => none

/-- Everything up to and including the last slash of a path ( `[]` when
the path has no slash). -/
def dropAfterLastSlash (path : List Char) : List Char :=
  (path.reverse.dropWhile (fun c => !(c == '/'))).reverse

/-- Modelled from `urllib.parse.urljoin`: simplified RFC 3986 reference
resolution (absolute references kept, scheme-relative and host-relative
references resolved against the base, relative paths resolved against the
base's directory). -/
def urljoinCore (base rel : List Char) : List Char :=
  if rel.isEmpty then base
  else if csContains "://".toList rel then rel
  else
    let split : Option (List Char × List Char) :=
      if List.isPrefixOf "http://".toList base then some ("http://".toList, base.drop 7)
      else if List.isPrefixOf "https://".toList base then some ("https://".toList, base.drop 8)
      else none
    match split with
    | none => rel
    | some (sch, rest) =>
      let host := rest.takeWhile (fun c => !(c == '/'))
      let path := rest.drop host.length
      if List.isPrefixOf "//".toList rel then sch.takeWhile (fun c => !(c == '/')) ++ rel
      else if List.isPrefixOf "/".toList rel then sch ++ host ++ rel
      else
        let dir := dropAfterLastSlash path
        if dir.isEmpty then sch ++ host ++ ('/' :: rel) else sch ++ host ++ dir ++ rel

/-- String wrapper for `urljoinCore`. -/
def urljoin (base rel : String) : String := String.mk (urljoinCore base.toList rel.toList)

/-- First whitespace-delimited token of a srcset entry: models
`entry.strip().split()[0]`, with `none` for the `IndexError` case (empty
or whitespace-only entry). -/
def firstWord (entry : List Char) : Option (List Char) :=
  let w := (entry.dropWhile Char.isWhitespace).takeWhile (fun c => !c.isWhitespace)
  if w.isEmpty then none else some w

/-- Python `str.split(",")`. -/
def splitOnComma : List Char → List (List Char)
  | [] => [[]]
  | c :: t =>
    if c = ',' then [] :: splitOnComma t
    else
      match splitOnComma t with
      | [] => [[c]]
      | h :: r => (c :: h) :: r

/-- Candidates from a `srcset` attribute (source lines 343-353): split on
commas, take each entry's first whitespace-delimited token, resolve it;
an empty or whitespace-only entry raises `IndexError`. -/
def srcsetCandidates (base : String) (srcset : String) : Except PyError (List StreamCandidate) :=
  (splitOnComma srcset.toList).mapM (fun entry =>
    match firstWord entry with
    | some w => Except.ok { url := urljoin base (String.mk w), source_type := "source_tag" }
    | none => Except.error PyError.indexError)

/-- Candidates from one `<source>` child of a `<video>` (src then srcset,
source lines 334-353). -/
def sourceTagCandidates (base : String) (s : SourceTag) : Except PyError (List StreamCandidate) := do
  let fromSrc := match attrTruthy s.src with
    | some u => [{ url := urljoin base u, source_type := "source_tag" : StreamCandidate }]
    | none => []
  let fromSrcset ← match attrTruthy s.srcset with
    | some ss => srcsetCandidates base ss
    | none => Except.ok []
  Except.ok (fromSrc ++ fromSrcset)

/-- Candidates from one `<video>` element (its own src, then its
`<source>` children, source lines 323-353). -/
def videoTagCandidates (base : String) (v : VideoTag) : Except PyError (List StreamCandidate) := do
  let own := match attrTruthy v.src with
    | some u => [{ url := urljoin base u, source_type := "video_tag" : StreamCandidate }]
    | none => []
  let children ← v.sources.mapM (sourceTagCandidates base)
  Except.ok (own ++ children.flatten)

/-- Candidates from one top-level `<source>` element (src only, source
lines 356-363). -/
def topLevelSourceCandidates (base : String) (s : SourceTag) : List StreamCandidate :=
  match attrTruthy s.src with
  | some u => [{ url := urljoin base u, source_type := "source_tag" }]
  | none => []

/-- A character allowed inside a regex-matched URL: the negated class
`[^\s"'<>]` (34 and 39 are the double and single quote). -/
def isUrlChar (c : Char) : Bool :=
  !(c.isWhitespace || c == Char.ofNat 34 || c == Char.ofNat 39 || c == '<' || c == '>')

/-- Does `.EXT` occur inside the URL-character run at offset at least 1
(the `[^\s"'<>]+` group needs at least one character before it)? -/
def extOccursInside (ext run : List Char) : Bool :=
  match run with
  | [] => false
  | _ :: t => clContains ext t

/-- Length of the regex match `https?://[^\s"'<>]+\.EXT[^\s"'<>]*`
starting exactly at the head of `cs`, if any. -/
def matchLenAt (ext : List Char) (cs : List Char) : Option Nat :=
  if clPrefixOf "https://".toList cs then
    let run := (cs.drop 8).takeWhile isUrlChar
    if extOccursInside ext run then some (8 + run.length) else none
  else if clPrefixOf "http://".toList cs then
    let run := (cs.drop 7).takeWhile isUrlChar
    if extOccursInside ext run then some (7 + run.length) else none
  else none

/-- `re.finditer`: scan left to right, take the leftmost match, continue
after its end (non-overlapping).  Fuelled for structural recursion; the
fuel never runs out because every step consumes at least one character. -/
def finditerAux (ext : List Char) : Nat → List Char → List (List Char)
  | 0, _ => []
  | _ + 1, [] => []
  | fuel + 1, c :: rest =>
    match matchLenAt ext (c :: rest) with
    | some n => (c :: rest).take n :: finditerAux ext fuel ((c :: rest).drop n)
    | none => finditerAux ext fuel rest

/-- All matches of the stream-URL regex for extension `ext` in `text`. -/
def finditerStream (ext : List Char) (text : List Char) : List (List Char) :=
  finditerAux ext text.length text

/-- The asset-extension false-positive filter (source lines 380-382):
matches containing any of these anywhere (case-insensitively) are
discarded. -/
def isNonStreamUrl (url : List Char) : Bool :=
  [".jpg", ".jpeg", ".png", ".gif", ".css", ".js", ".json"].any
    (fun e => clContains e.toList url)

/-- The stream URL patterns with their source_type tags, in the source's
order (source lines 366-371). -/
def streamPatterns : List (String × String) :=
  [(".m3u8", "m3u8_link"), (".mp4", "mp4_link"), (".webm", "webm_link"), (".m3u", "m3u_link")]

/-- Candidates found by the regex pass over one text (pattern-major order,
as in the source's nested loops), with the source_type transformed by
`tagOf` (identity for page text, a `script_` prefix for script tags). -/
def patternCandidates (tagOf : String → String) (text : List Char) : List StreamCandidate :=
  streamPatterns.flatMap (fun p =>
    (finditerStream p.1.toList text).filterMap (fun m =>
      if isNonStreamUrl m then none
      else some { url := String.mk m, source_type := tagOf p.2 }))

/-- The full pre-deduplication discovery sequence, passes in the source's
fixed order: `<video>` elements, top-level `<source>` elements, page-text
regex search, script-tag regex search (iframes yield nothing).  Candidate
generation never consults the seen-set, so the source's interleaved
dedup is exactly a fold over this list (see
`extract_streams_from_html`). -/
def discoveryCandidates (soup : Soup) (base : String) : Except PyError (List StreamCandidate) := do
  let fromVideos ← soup.videos.mapM (videoTagCandidates base)
  let fromTop := soup.topLevelSources.flatMap (topLevelSourceCandidates base)
  let fromText := patternCandidates id soup.pageText.toList
  let fromScripts := soup.scripts.flatMap
    (fun s => patternCandidates (fun t => "script_" ++ t) s.toList)
  Except.ok (fromVideos.flatten ++ fromTop ++ fromText ++ fromScripts)

/-- The mutable state of the source's extraction loop: the `streams` list
and the `seen_urls` set. -/
structure ExtractState where
  streams : List StreamCandidate
  seen : List String
deriving DecidableEq

/-- One insertion attempt: skip if the URL was already seen, else append
the candidate and record the URL (source's `if url not in seen_urls`). -/
def addCandidate (st : ExtractState) (c : StreamCandidate) : ExtractState :=
  if st.seen.contains c.url then st
  else { streams := st.streams ++ [c], seen := c.url :: st.seen }

/-- `extract_streams_from_html`: generate the discovery sequence (which
can raise `IndexError` from srcset handling) and thread the seen-set
through it in order. -/
def extract_streams_from_html (soup : Soup) (base : String) :
    Except PyError (List StreamCandidate) := do
  let cands ← discoveryCandidates soup base
  Except.ok ((cands.foldl addCandidate { streams := [], seen := [] }).streams)

/-- Follows the spec's words: keep only the first-found candidate for each
URL, preserving order.  Fuelled for structural recursion (the recursive
argument is a filtered sublist). -/
def keepFirstAux : Nat → List StreamCandidate → List StreamCandidate
  | 0, _ => []
  | _ + 1, [] => []
  | fuel + 1, c :: rest =>
    c :: keepFirstAux fuel (rest.filter (fun d => !(d.url == c.url)))

/-- Keep the first-found candidate for each URL. -/
def keepFirstByUrl (l : List StreamCandidate) : List StreamCandidate :=
  keepFirstAux l.length l

/-- Proof-side reformulation of the extraction loop's dedup: thread an
explicit seen-set through the candidate list. -/
def dedupSeen (seen : List String) : List StreamCandidate → List StreamCandidate
  | [] => []
  | c :: rest =>
    if seen.contains c.url then dedupSeen seen rest
    else c :: dedupSeen (c.url :: seen) rest

theorem dedupSeen_cons_pos (seen : List String) (c : StreamCandidate)
    (rest : List StreamCandidate) (h : seen.contains c.url = true) :
    dedupSeen seen (c :: rest) = dedupSeen seen rest := by
  simp only [dedupSeen]
  rw [if_pos h]

theorem dedupSeen_cons_neg (seen : List String) (c : StreamCandidate)
    (rest : List StreamCandidate) (h : ¬ seen.contains c.url = true) :
    dedupSeen seen (c :: rest) = c :: dedupSeen (c.url :: seen) rest := by
  simp only [dedupSeen]
  rw [if_neg h]

theorem foldl_addCandidate (l : List StreamCandidate) (st : ExtractState) :
    (l.foldl addCandidate st).streams = st.streams ++ dedupSeen st.seen l := by
  induction l generalizing st with
  | nil => simp [dedupSeen]
  | cons c rest ih =>
    rw [List.foldl_cons]
    by_cases h : st.seen.contains c.url
    · rw [show addCandidate st c = st from by simp only [addCandidate]; rw [if_pos h], ih,
        dedupSeen_cons_pos _ _ _ h]
    · rw [show addCandidate st c =
          { streams := st.streams ++ [c], seen := c.url :: st.seen } from by
        simp only [addCandidate]; rw [if_neg h], ih]
      show st.streams ++ [c] ++ dedupSeen (c.url :: st.seen) rest =
        st.streams ++ dedupSeen st.seen (c :: rest)
      rw [List.append_assoc, dedupSeen_cons_neg _ _ _ h]
      rfl

theorem keepFirstAux_nil (fuel : Nat) : keepFirstAux fuel [] = [] := by
  cases fuel <;> rfl

theorem keepFirstAux_zero (l : List StreamCandidate) : keepFirstAux 0 l = [] := rfl

theorem keepFirstAux_congr : ∀ (fuel fuel' : Nat) (l : List StreamCandidate),
    l.length ≤ fuel → l.length ≤ fuel' → keepFirstAux fuel l = keepFirstAux fuel' l := by
  intro fuel
  induction fuel with
  | zero =>
    intro fuel' l h h'
    have : l = [] := List.length_eq_zero.mp (Nat.le_zero.mp h)
    subst this
    rw [keepFirstAux_nil, keepFirstAux_nil]
  | succ fuel ih =>
    intro fuel' l h h'
    cases l with
    | nil => rw [keepFirstAux_nil, keepFirstAux_nil]
    | cons c rest =>
      cases fuel' with
      | zero => simp at h'
      | succ f =>
        simp only [keepFirstAux]
        congr 1
        have h1 : rest.length ≤ fuel := by simpa using h
        have h2 : rest.length ≤ f := by simpa using h'
        exact ih f _ (le_trans (List.length_filter_le _ _) h1)
          (le_trans (List.length_filter_le _ _) h2)

theorem keepFirstByUrl_cons (c : StreamCandidate) (rest : List StreamCandidate) :
    keepFirstByUrl (c :: rest) =
      c :: keepFirstByUrl (rest.filter (fun d => !(d.url == c.url))) := by
  unfold keepFirstByUrl
  simp only [List.length_cons, keepFirstAux]
  congr 1
  exact keepFirstAux_congr rest.length _ _ (le_trans (List.length_filter_le _ _) (le_refl _))
    (le_refl _)

theorem dedupSeen_eq_keepFirst (l : List StreamCandidate) :
    ∀ seen, dedupSeen seen l =
      keepFirstByUrl (l.filter (fun d => !(seen.contains d.url))) := by
  induction l with
  | nil => intro seen; simp [dedupSeen, keepFirstByUrl, keepFirstAux]
  | cons c rest ih =>
    intro seen
    by_cases h : seen.contains c.url
    · rw [dedupSeen_cons_pos _ _ _ h, ih seen]
      congr 1
      rw [List.filter_cons_of_neg]
      show ¬ (!(seen.contains c.url)) = true
      rw [h]
      simp
    · rw [dedupSeen_cons_neg _ _ _ h, ih (c.url :: seen)]
      rw [show (c :: rest).filter (fun d => !(seen.contains d.url)) =
          c :: rest.filter (fun d => !(seen.contains d.url)) from
        List.filter_cons_of_pos (by
          show (!(seen.contains c.url)) = true
          simp only [Bool.not_eq_true] at h
          rw [h]
          rfl)]
      rw [keepFirstByUrl_cons]
      congr 1
      rw [List.filter_filter]
      congr 1
      apply List.filter_congr
      intro d _
      show (!(c.url :: seen).contains d.url) =
        ((!(d.url == c.url)) && (!(seen.contains d.url)))
      rw [List.contains_cons, Bool.not_or]

theorem keepFirstAux_sublist : ∀ (fuel : Nat) (l : List StreamCandidate),
    List.Sublist (keepFirstAux fuel l) l := by
  intro fuel
  induction fuel with
  | zero => intro l; rw [keepFirstAux_zero]; exact List.nil_sublist l
  | succ fuel ih =>
    intro l
    cases l with
    | nil => rw [keepFirstAux_nil]
    | cons c rest =>
      simp only [keepFirstAux]
      exact ((ih _).trans (List.filter_sublist rest)).cons₂ c

theorem keepFirstAux_nodup : ∀ (fuel : Nat) (l : List StreamCandidate),
    ((keepFirstAux fuel l).map (fun c => c.url)).Nodup := by
  intro fuel
  induction fuel with
  | zero => intro l; rw [keepFirstAux_zero]; exact List.nodup_nil
  | succ fuel ih =>
    intro l
    cases l with
    | nil => rw [keepFirstAux_nil]; exact List.nodup_nil
    | cons c rest =>
      simp only [keepFirstAux, List.map_cons, List.nodup_cons]
      refine ⟨?_, ih _⟩
      intro hmem
      rcases List.mem_map.mp hmem with ⟨d, hd, hurl⟩
      have hdl := (keepFirstAux_sublist fuel _).subset hd
      have hfilt := (List.mem_filter.mp hdl).2
      rw [hurl] at hfilt
      simp at hfilt

theorem keepFirstAux_head : ∀ (fuel : Nat) (l : List StreamCandidate),
    l.length ≤ fuel → ∀ c ∈ keepFirstAux fuel l,
      (l.filter (fun d => d.url == c.url)).head? = some c := by
  intro fuel
  induction fuel with
  | zero =>
    intro l h c hc
    rw [keepFirstAux_zero] at hc
    simp at hc
  | succ fuel ih =>
    intro l h c hc
    cases l with
    | nil => rw [keepFirstAux_nil] at hc; simp at hc
    | cons a rest =>
      simp only [keepFirstAux, List.mem_cons] at hc
      rcases hc with rfl | hc
      · simp [List.filter_cons]
      · have hlen : (rest.filter (fun d => !(d.url == a.url))).length ≤ fuel :=
          le_trans (List.length_filter_le _ _) (by simpa using h)
        have hmem := (keepFirstAux_sublist fuel _).subset hc
        have hne : (c.url == a.url) = false := by
          have := (List.mem_filter.mp hmem).2
          simpa using this
        have hne' : c.url ≠ a.url := by simpa using hne
        have ihres := ih _ hlen c hc
        rw [List.filter_filter] at ihres
        rw [show (a :: rest).filter (fun d => d.url == c.url) =
            rest.filter (fun d => d.url == c.url) by
          simp only [List.filter_cons]
          rw [if_neg]
          simp only [beq_iff_eq]
          exact fun hac => hne' hac.symm]
        rw [show rest.filter (fun d => d.url == c.url) =
            rest.filter (fun d => (d.url == c.url) && !(d.url == a.url)) from
          List.filter_congr ?_]
        · exact ihres
        · intro d _
          by_cases hd : d.url = c.url
          · simp [hd, hne']
          · simp [hd]

/-- C4.  Whenever extraction succeeds, its output is exactly the
first-occurrence deduplication of the pre-dedup discovery sequence (whose
definition concatenates the four passes in the source's fixed order): the
URLs are pairwise distinct, the output is an order-preserving sublist of
the discovery sequence, and each emitted candidate is the first-found
candidate (with the first pass's source_type tag) among all discovery
candidates sharing its URL. -/
theorem extract_dedup_discovery_order (soup : Soup) (base : String)
    (cands : List StreamCandidate)
    (h : discoveryCandidates soup base = Except.ok cands) :
    extract_streams_from_html soup base = Except.ok (keepFirstByUrl cands) ∧
    ((keepFirstByUrl cands).map (fun c => c.url)).Nodup ∧
    List.Sublist (keepFirstByUrl cands) cands ∧
    ∀ c ∈ keepFirstByUrl cands,
      (cands.filter (fun d => d.url == c.url)).head? = some c := by
  refine ⟨?_, keepFirstAux_nodup _ _, keepFirstAux_sublist _ _,
    keepFirstAux_head _ _ (le_refl _)⟩
  show (discoveryCandidates soup base).bind _ = _
  rw [h]
  show Except.ok ((cands.foldl addCandidate { streams := [], seen := [] }).streams) = _
  rw [foldl_addCandidate]
  simp only [List.nil_append]
  rw [dedupSeen_eq_keepFirst]
  congr 2
  simp

/-- Witness for `extract_dedup_discovery_order`: a page whose `<video src>`
URL reappears in the page text (and whose `.m3u8` URL is re-matched by the
`.m3u` pattern); only the first-found candidate of each URL survives. -/
theorem extract_dedup_discovery_order_witness :
    extract_streams_from_html
      { videos := [{ src := some "http://e.co/a.mp4", sources := [] }]
        topLevelSources := []
        pageText := "x http://e.co/a.mp4 http://e.co/b.m3u8"
        scripts := [], iframes := [] } "http://e.co/" =
      Except.ok [{ url := "http://e.co/a.mp4", source_type := "video_tag" },
                 { url := "http://e.co/b.m3u8", source_type := "m3u8_link" }] := by
  have h := (extract_dedup_discovery_order
    { videos := [{ src := some "http://e.co/a.mp4", sources := [] }]
      topLevelSources := []
      pageText := "x http://e.co/a.mp4 http://e.co/b.m3u8"
      scripts := [], iframes := [] } "http://e.co/"
    [{ url := "http://e.co/a.mp4", source_type := "video_tag" },
     { url := "http://e.co/b.m3u8", source_type := "m3u8_link" },
     { url := "http://e.co/a.mp4", source_type := "mp4_link" },
     { url := "http://e.co/b.m3u8", source_type := "m3u_link" }] (by decide)).1
  exact h.trans (by decide)

/-- C5 (code bug).  A parseable page whose `<source srcset>` contains an
empty comma-separated entry makes `extract_streams_from_html` raise
`IndexError` (`entry.strip().split()[0]` on an empty token), escaping as
neither a normal return nor an `HTMLParseError`. -/
theorem extract_srcset_empty_entry_indexerror :
    extract_streams_from_html
      { videos := [{ src := none,
                     sources := [{ src := none, srcset := some ", http://e.co/v.mp4" }] }]
        topLevelSources := [], pageText := "", scripts := [], iframes := [] }
      "http://e.co/" = Except.error PyError.indexError := by decide

/-!
## Config store (`feed_manager.py`)

The filesystem is modelled by explicit state: `FileState` is the config
file's content as far as `load_feeds` branches on it (missing /
YAML-unparseable / empty (`safe_load` returns `None`) / root not a dict /
dict whose `feeds` key is absent, not a list, or a list of raw entries).
Pydantic validation of one raw entry (`Feed(**feed_data)`) is modelled by
`parse_feed`; the pydantic `HttpUrl` check is modelled as an http/https
scheme with a non-empty host, and the stored URL string is kept verbatim.
`save_feeds`' I/O is modelled by a `SaveEnv` parameter naming where the
write protocol fails, if anywhere; the temp-file/rename protocol is an
atomic transition on `SaveFS`.
-/

/-- `WindowSize` pydantic model (`models.py`): positive dimensions. -/
structure WindowSize where
  width : Int
  height : Int
deriving DecidableEq

/-- `Feed` pydantic model (`models.py`): stripped non-empty name,
validated URL, optional window size. -/
structure Feed where
  name : String
  url : String
  window_size : Option WindowSize
deriving DecidableEq

/-- Python `str.strip()`. -/
def pyStrip (s : String) : String :=
  String.mk (((s.toList.dropWhile Char.isWhitespace).reverse.dropWhile
    Char.isWhitespace).reverse)

/-- Modelled from pydantic's `HttpUrl` validation: an http/https scheme
followed by a non-empty host. -/
def isValidHttpUrl (s : String) : Bool :=
  let u := lowerList s.toList
  (List.isPrefixOf "http://".toList u &&
    !((u.drop 7).takeWhile (fun c => !(c == '/'))).isEmpty) ||
  (List.isPrefixOf "https://".toList u &&
    !((u.drop 8).takeWhile (fun c => !(c == '/'))).isEmpty)

/-- A raw `feeds` entry as parsed from the config file, before pydantic
validation.  `junk` covers entries that are not mappings at all
(`Feed(**feed_data)` raises, the entry is skipped); a mapping carries the
three recognised keys (missing key = `none`). -/
inductive RawEntry where
  | junk
  | entry (name : Option String) (url : Option String) (window : Option (Int × Int))
deriving DecidableEq

/-- `Feed(**feed_data)` (source line 80): pydantic validation of one raw
entry.  `none` models the exception that makes `load_feeds` skip the
entry: missing name or url, name empty after stripping, invalid URL, or
non-positive window dimensions. -/
def parse_feed : RawEntry → Option Feed
  | RawEntry.junk => none
  | RawEntry.entry nameOpt urlOpt windowOpt =>
    match nameOpt, urlOpt with
    | some n, some u =>
      let stripped := pyStrip n
      if stripped.isEmpty then none
      else if !(isValidHttpUrl u) then none
      else
        match windowOpt with
        | none => some { name := stripped, url := u, window_size := none }
        | some (w, h) =>
          if 0 < w && 0 < h then
            some { name := stripped, url := u, window_size := some ⟨w, h⟩ }
          else none
    | _, _ => none

/-- The shape of the `feeds` key inside a parsed root mapping. -/
inductive FeedsField where
  | absent
  | notList
  | list (entries : List RawEntry)
deriving DecidableEq

/-- The config file's content as `load_feeds` distinguishes it. -/
inductive ConfigContent where
  | unparseable
  | null
  | notMapping
  | mapping (feeds : FeedsField)
deriving DecidableEq

/-- The config file itself: missing, or present with some content. -/
inductive FileState where
  | missing
  | file (c : ConfigContent)
deriving DecidableEq

/-- `_create_empty_config_file` writes `{"feeds": []}` (source lines
229-246). -/
def emptyConfigFile : FileState :=
  FileState.file (ConfigContent.mapping (FeedsField.list []))

/-- `load_feeds` (source lines 28-103) as a transition on the file state,
returning the new file state and the loaded feeds: a missing file is
created empty; YAML errors, a non-dict root and a non-list `feeds` value
rebuild the empty file and return `[]`; an empty file returns `[]`
without rewriting; a dict without `feeds` uses the `[]` default; entries
failing pydantic validation are skipped individually. -/
def load_feeds : FileState → FileState × List Feed
  | FileState.missing => (emptyConfigFile, [])
  | FileState.file ConfigContent.unparseable => (emptyConfigFile, [])
  | FileState.file ConfigContent.null => (FileState.file ConfigContent.null, [])
  | FileState.file ConfigContent.notMapping => (emptyConfigFile, [])
  | FileState.file (ConfigContent.mapping FeedsField.absent) =>
    (FileState.file (ConfigContent.mapping FeedsField.absent), [])
  | FileState.file (ConfigContent.mapping FeedsField.notList) => (emptyConfigFile, [])
  | FileState.file (ConfigContent.mapping (FeedsField.list es)) =>
    (FileState.file (ConfigContent.mapping (FeedsField.list es)), es.filterMap parse_feed)

/-- An element of the list handed to `save_feeds`: the source checks
`isinstance(feed, Feed)` for each, so the model allows non-Feed junk. -/
inductive FeedItem where
  | feed (f : Feed)
  | notAFeed
deriving DecidableEq

/-- The filesystem as `save_feeds` touches it: the config file and the
temporary file (present between creation and rename/cleanup). -/
structure SaveFS where
  config : FileState
  temp : Option (List Feed)
deriving DecidableEq

/-- Where the write protocol fails, if anywhere: after the temp file is
created (dump failure), at the rename, or nowhere. -/
inductive SaveEnv where
  | ok
  | failAfterTempWrite
  | failAtRename
deriving DecidableEq

/-- The exceptions `save_feeds` raises: `ValueError` for a non-Feed
element, or the propagated I/O error. -/
inductive SaveError where
  | valueError
  | ioError
deriving DecidableEq

/-- Serialization of one feed (`feed.model_dump` + URL stringification,
source lines 133-138). -/
def serializeEntry (f : Feed) : RawEntry :=
  RawEntry.entry (some f.name) (some f.url)
    (f.window_size.map (fun w => (w.width, w.height)))

/-- The document `save_feeds` writes: `{"feeds": [...]}`. -/
def serializeFeeds (fs : List Feed) : FileState :=
  FileState.file (ConfigContent.mapping (FeedsField.list (fs.map serializeEntry)))

/-- The `isinstance(feed, Feed)` test of the validation loop. -/
def isJunkItem : FeedItem → Bool
  | FeedItem.feed _ => false
  | FeedItem.notAFeed => true

/-- Projection of a valid item. -/
def getFeed : FeedItem → Option Feed
  | FeedItem.feed f => some f
  | FeedItem.notAFeed => none

/-- `save_feeds` (source lines 106-170) as a transition on `SaveFS`: the
validation loop raises `ValueError` before anything is written; otherwise
the document is dumped to a temp file in the target directory and renamed
over the config file (one atomic transition); on an I/O failure after the
temp file exists, the handler unlinks the temp file and re-raises, leaving
the previous config content. -/
def save_feeds (items : List FeedItem) (env : SaveEnv) (st : SaveFS) :
    SaveFS × Except SaveError Unit :=
  if items.any isJunkItem then (st, Except.error SaveError.valueError)
  else
    match env with
    | SaveEnv.ok =>
      ({ config := serializeFeeds (items.filterMap getFeed), temp := none }, Except.ok ())
    | SaveEnv.failAfterTempWrite =>
      ({ config := st.config, temp := none }, Except.error SaveError.ioError)
    | SaveEnv.failAtRename =>
      ({ config := st.config, temp := none }, Except.error SaveError.ioError)

/-- Value of a digit character. -/
def digitVal (c : Char) : Nat := c.toNat - 48

/-- Python `int` of a digit string. -/
def digitsToNat (ds : List Char) : Nat := ds.foldl (fun a c => a * 10 + digitVal c) 0

/-- Match of `re.match(r"^(.+?)\s+\((\d+)\)$", name)` (source lines
205-209), returning the base group and the parsed number.  The
implementation parses from the end: a final `)` preceded by a non-empty
digit run, preceded by `(`, preceded by a non-empty (maximal) whitespace
run, preceded by the base.  The non-greedy `.+?` makes the base minimal,
so the whitespace run is maximal — except that when everything before `(`
is whitespace, `.+?` claims the run's first character as the base. -/
def stripNumberSuffix (name : List Char) : Option (List Char × Nat) :=
  match name.reverse with
  | ')' :: rest =>
    if (rest.takeWhile Char.isDigit).isEmpty then none
    else
      match rest.drop (rest.takeWhile Char.isDigit).length with
      | '(' :: afterParen =>
        if (afterParen.takeWhile Char.isWhitespace).isEmpty then none
        else
          if !((afterParen.drop (afterParen.takeWhile Char.isWhitespace).length).isEmpty) then
            some ((afterParen.drop (afterParen.takeWhile Char.isWhitespace).length).reverse,
              digitsToNat (rest.takeWhile Char.isDigit).reverse)
          else if 2 ≤ (afterParen.takeWhile Char.isWhitespace).length then
            some ([(afterParen.takeWhile Char.isWhitespace).getLast?.getD ' '],
              digitsToNat (rest.takeWhile Char.isDigit).reverse)
          else none
      | _ => none
  | _ => none

/-- Match of the anchored scan regex `^{re.escape(base)}\s+\((\d+)\)$` on
the remainder of an existing name after the literal base (source line
217): a maximal non-empty whitespace run, `(`, a maximal non-empty digit
run, `)`, end of string.  (Maximal runs are faithful: backtracking cannot
help because `(` is not whitespace and `)` is not a digit.) -/
def parseSuffixRest (rest : List Char) : Option Nat :=
  if (rest.takeWhile Char.isWhitespace).isEmpty then none
  else
    match rest.drop (rest.takeWhile Char.isWhitespace).length with
    | '(' :: more =>
      if (more.takeWhile Char.isDigit).isEmpty then none
      else
        match more.drop (more.takeWhile Char.isDigit).length with
        | [')'] => some (digitsToNat (more.takeWhile Char.isDigit))
        | _ => none
    | _ => none

/-- The `startswith(f"{base} (")` guard plus the scan regex (source lines
215-220). -/
def scanSuffix (base e : List Char) : Option Nat :=
  if List.isPrefixOf (base ++ [' ', '(']) e then parseSuffixRest (e.drop base.length)
  else none

/-- Contribution of one existing name to the running maximum (source
lines 212-220): the bare base counts 1, a scanned `base (N)` counts `N`,
anything else leaves the maximum unchanged (contributes 0). -/
def scanContrib (base e : List Char) : Nat :=
  if e == base then 1
  else
    match scanSuffix base e with
    | some n => n
    | none => 0

/-- The base group of the proposed name (the name itself when the suffix
regex does not match). -/
def resolveBase (name : List Char) : List Char :=
  match stripNumberSuffix name with
  | some (b, _) => b
  | none => name

/-- The initial `max_suffix`: the proposed name's own parsed suffix, or 1. -/
def resolveStart (name : List Char) : Nat :=
  match stripNumberSuffix name with
  | some (_, n) => n
  | none => 1

/-- The scan loop (source lines 212-220): fold the per-name contributions
into the running maximum.  The source iterates over the *set* of existing
names; `max` is order- and duplicate-insensitive, so folding the list is
equivalent. -/
def maxExistingSuffix (base : List Char) (start : Nat) (names : List (List Char)) : Nat :=
  names.foldl (fun m e => max m (scanContrib base e)) start

/-- `resolve_duplicate_name` on character lists: an unused name is
returned as-is; otherwise `f"{base_name} ({max_suffix + 1})"`. -/
def resolveCore (name : List Char) (names : List (List Char)) : List Char :=
  if !(names.contains name) then name
  else
    resolveBase name ++ [' ', '('] ++
      natDigits (maxExistingSuffix (resolveBase name) (resolveStart name) names + 1) ++ [')']

/-- `resolve_duplicate_name` (source lines 173-226). -/
def resolve_duplicate_name (name : String) (feeds : List Feed) : String :=
  String.mk (resolveCore name.toList (feeds.map (fun f => f.name.toList)))

/-- Follows the spec's words (claim C8): a literal single-space `" (N)"`
suffix parse. -/
def specSuffixSplit (name : List Char) : Option (List Char × Nat) :=
  match name.reverse with
  | ')' :: rest =>
    if (rest.takeWhile Char.isDigit).isEmpty then none
    else
      match rest.drop (rest.takeWhile Char.isDigit).length with
      | '(' :: ' ' :: baseRev =>
        if baseRev.isEmpty then none
        else some (baseRev.reverse, digitsToNat (rest.takeWhile Char.isDigit).reverse)
      | _ => none
  | _ => none

/-- Follows the spec's words (claim C8): contribution of an existing name
sharing the base — the bare base counts 1, `base (N)` counts N. -/
def specContrib (base e : List Char) : Nat :=
  if e == base then 1
  else
    match specSuffixSplit e with
    | some (b, n) => if b == base then n else 0
    | none => 0

/-- Follows the spec's words (claim C8): strip any `" (N)"` suffix to get
the base, take the maximum suffix over existing names sharing that base,
return `"{base} ({max+1})"`. -/
def specResolveDuplicate (name : List Char) (names : List (List Char)) : List Char :=
  if !(names.contains name) then name
  else
    let base := match specSuffixSplit name with
      | some (b, _) => b
      | none => name
    base ++ [' ', '('] ++
      natDigits (names.foldl (fun m e => max m (specContrib base e)) 0 + 1) ++ [')']

/-- `FeedNotFoundError` / `ValueError` / propagated I/O errors of
`update_feed_window_size`. -/
inductive UpdateError where
  | valueError
  | feedNotFound
  | ioError
deriving DecidableEq

/-- `validate_window_size` (source lines 263-278). -/
def validate_window_size (w h : Int) : Bool :=
  320 ≤ w && w ≤ 7680 && 240 ≤ h && h ≤ 4320

/-- The update loop of `update_feed_window_size` (source lines 370-376):
set the window size of the first feed with a matching name (the loop
breaks after the first hit). -/
def setWindowFirst (feedName : String) (ws : WindowSize) : List Feed → List Feed
  | [] => []
  | f :: t =>
    if f.name = feedName then { f with window_size := some ws } :: t
    else f :: setWindowFirst feedName ws t

/-- `update_feed_window_size` (source lines 337-382): validate the
dimensions first (`ValueError` touches nothing), then load (which may
rebuild a corrupt or missing file), then either `FeedNotFoundError` with
no save, or update-and-save. -/
def update_feed_window_size (feedName : String) (w h : Int) (env : SaveEnv) (st : SaveFS) :
    SaveFS × Except UpdateError Unit :=
  if !(validate_window_size w h) then (st, Except.error UpdateError.valueError)
  else
    let loaded := load_feeds st.config
    if loaded.2.all (fun f => !(f.name == feedName)) then
      ({ config := loaded.1, temp := st.temp }, Except.error UpdateError.feedNotFound)
    else
      let saved := save_feeds ((setWindowFirst feedName ⟨w, h⟩ loaded.2).map FeedItem.feed)
        env { config := loaded.1, temp := st.temp }
      (saved.1, saved.2.mapError (fun e =>
        match e with
        | SaveError.valueError => UpdateError.valueError
        | SaveError.ioError => UpdateError.ioError))

/-- C6.  `load_feeds` never raises for content problems (it is a total
function of the content state): unparseable content, a non-mapping root
and a non-list `feeds` value each rebuild the empty well-formed document
and return the empty sequence; an empty file returns the empty sequence
without rewriting; and a well-formed entry list loads to
`es.filterMap parse_feed` — every entry failing bookmark validation is
skipped individually while all valid entries are returned in file
order — without rewriting the file. -/
theorem load_feeds_content_recovery :
    load_feeds (FileState.file ConfigContent.unparseable) = (emptyConfigFile, []) ∧
    load_feeds (FileState.file ConfigContent.notMapping) = (emptyConfigFile, []) ∧
    load_feeds (FileState.file (ConfigContent.mapping FeedsField.notList)) =
      (emptyConfigFile, []) ∧
    load_feeds (FileState.file ConfigContent.null) = (FileState.file ConfigContent.null, []) ∧
    (∀ es : List RawEntry,
      load_feeds (FileState.file (ConfigContent.mapping (FeedsField.list es))) =
        (FileState.file (ConfigContent.mapping (FeedsField.list es)),
          es.filterMap parse_feed)) :=
  ⟨rfl, rfl, rfl, rfl, fun _ => rfl⟩

/-- C7.  `save_feeds` validates every element first and rejects the whole
call, writing nothing, when any element is not a `Feed`; on the success
path the config becomes the full serialized document in one atomic
transition with the temp file gone; on an I/O failure after the temp file
exists it deletes the temp file and re-raises with the previous config
content unchanged.  In every case the config file is either the old
content or the complete new document — never a partial write. -/
theorem save_feeds_atomicity (items : List FeedItem) (env : SaveEnv) (st : SaveFS) :
    (items.any isJunkItem = true →
      save_feeds items env st = (st, Except.error SaveError.valueError)) ∧
    (items.any isJunkItem = false → env = SaveEnv.ok →
      save_feeds items env st =
        ({ config := serializeFeeds (items.filterMap getFeed), temp := none },
          Except.ok ())) ∧
    (items.any isJunkItem = false → ¬ env = SaveEnv.ok →
      save_feeds items env st =
        ({ config := st.config, temp := none }, Except.error SaveError.ioError)) ∧
    ((save_feeds items env st).1.config = st.config ∨
      (save_feeds items env st).1.config = serializeFeeds (items.filterMap getFeed)) := by
  refine ⟨?_, ?_, ?_, ?_⟩
  · intro h
    simp [save_feeds, h]
  · intro h henv
    subst henv
    simp [save_feeds, h]
  · intro h henv
    cases env with
    | ok => exact absurd rfl henv
    | failAfterTempWrite => simp [save_feeds, h]
    | failAtRename => simp [save_feeds, h]
  · by_cases h : items.any isJunkItem <;> cases env <;> simp [save_feeds, h]

/-- Witness for `save_feeds_atomicity` at concrete inputs. -/
theorem save_feeds_atomicity_witness :
    save_feeds
        [FeedItem.feed { name := "Panda Cam", url := "http://zoo.example/cam", window_size := none }]
        SaveEnv.ok { config := FileState.file ConfigContent.null, temp := none } =
      ({ config := serializeFeeds
          [{ name := "Panda Cam", url := "http://zoo.example/cam", window_size := none }]
         temp := none }, Except.ok ()) ∧
    save_feeds [FeedItem.notAFeed] SaveEnv.ok
        { config := FileState.file ConfigContent.null, temp := none } =
      ({ config := FileState.file ConfigContent.null, temp := none },
        Except.error SaveError.valueError) ∧
    save_feeds
        [FeedItem.feed { name := "Panda Cam", url := "http://zoo.example/cam", window_size := none }]
        SaveEnv.failAtRename { config := FileState.file ConfigContent.null, temp := none } =
      ({ config := FileState.file ConfigContent.null, temp := none },
        Except.error SaveError.ioError) := by
  have h1 := (save_feeds_atomicity
    [FeedItem.feed { name := "Panda Cam", url := "http://zoo.example/cam", window_size := none }]
    SaveEnv.ok { config := FileState.file ConfigContent.null, temp := none }).2.1
    (by decide) rfl
  have h2 := (save_feeds_atomicity [FeedItem.notAFeed] SaveEnv.ok
    { config := FileState.file ConfigContent.null, temp := none }).1 (by decide)
  have h3 := (save_feeds_atomicity
    [FeedItem.feed { name := "Panda Cam", url := "http://zoo.example/cam", window_size := none }]
    SaveEnv.failAtRename { config := FileState.file ConfigContent.null, temp := none }).2.2.1
    (by decide) (by decide)
  exact ⟨h1.trans (by decide), h2, h3⟩

theorem isPrefixOf_append_self (l t : List Char) : List.isPrefixOf l (l ++ t) = true := by
  induction l with
  | nil => simp [List.isPrefixOf]
  | cons c cs ih => simp [List.isPrefixOf, ih]

theorem takeWhile_all_append (p : Char → Bool) (l : List Char) (x : Char)
    (hall : ∀ c ∈ l, p c = true) (hx : p x = false) :
    (l ++ [x]).takeWhile p = l := by
  induction l with
  | nil => simp [List.takeWhile_cons, hx]
  | cons c cs ih =>
    have hc := hall c (List.mem_cons_self c cs)
    simp [List.takeWhile_cons, hc,
      ih (fun d hd => hall d (List.mem_cons_of_mem c hd))]

theorem natDigitChar_isDigit (d : Nat) (h : d < 10) : (natDigitChar d).isDigit = true := by
  interval_cases d <;> decide

theorem digitVal_natDigitChar (d : Nat) (h : d < 10) : digitVal (natDigitChar d) = d := by
  interval_cases d <;> decide

theorem natDigitsAux_all_digits (fuel : Nat) :
    ∀ n, ∀ c ∈ natDigitsAux fuel n, c.isDigit = true := by
  induction fuel with
  | zero => intro n c hc; simp [natDigitsAux] at hc
  | succ fuel ih =>
    intro n c hc
    by_cases h10 : n < 10
    · simp only [natDigitsAux, if_pos h10] at hc
      rw [List.mem_singleton.mp hc]
      exact natDigitChar_isDigit n h10
    · simp only [natDigitsAux, if_neg h10] at hc
      rcases List.mem_append.mp hc with hm | hm
      · exact ih _ c hm
      · rw [List.mem_singleton.mp hm]
        exact natDigitChar_isDigit _ (Nat.mod_lt n (by omega))

theorem natDigits_all_digits (n : Nat) : ∀ c ∈ natDigits n, c.isDigit = true :=
  natDigitsAux_all_digits _ n

theorem natDigits_ne_nil (n : Nat) : natDigits n ≠ [] := by
  unfold natDigits
  simp only [natDigitsAux]
  split
  · simp
  · simp

theorem natDigitsAux_foldl : ∀ (fuel n acc : Nat), n < fuel →
    List.foldl (fun a c => a * 10 + digitVal c) acc (natDigitsAux fuel n) =
      acc * 10 ^ (natDigitsAux fuel n).length + n := by
  intro fuel
  induction fuel with
  | zero => intro n acc h; exact absurd h (Nat.not_lt_zero n)
  | succ fuel ih =>
    intro n acc h
    by_cases h10 : n < 10
    · simp only [natDigitsAux, if_pos h10, List.foldl_cons, List.foldl_nil,
        List.length_cons, List.length_nil]
      rw [digitVal_natDigitChar n h10, pow_one]
    · simp only [natDigitsAux, if_neg h10]
      rw [List.foldl_append, ih (n / 10) acc (by omega), List.length_append]
      simp only [List.foldl_cons, List.foldl_nil, List.length_cons, List.length_nil]
      rw [digitVal_natDigitChar (n % 10) (Nat.mod_lt n (by omega)), pow_succ,
        Nat.add_mul, ← Nat.mul_assoc, Nat.add_assoc]
      congr 1
      omega

theorem digitsToNat_natDigits (n : Nat) : digitsToNat (natDigits n) = n := by
  unfold digitsToNat natDigits
  rw [natDigitsAux_foldl (n + 1) n 0 (Nat.lt_succ_self n)]
  simp

theorem parseSuffixRest_canonical (k : Nat) :
    parseSuffixRest (' ' :: '(' :: (natDigits k ++ [')'])) = some k := by
  have hws : ((' ' :: '(' :: (natDigits k ++ [')'])).takeWhile Char.isWhitespace) = [' '] := by
    rw [List.takeWhile_cons, if_pos (by decide), List.takeWhile_cons, if_neg (by decide)]
  have hds : ((natDigits k ++ [')']).takeWhile Char.isDigit) = natDigits k :=
    takeWhile_all_append _ _ _ (natDigits_all_digits k) (by decide)
  unfold parseSuffixRest
  rw [hws]
  rw [if_neg (by decide)]
  show (match (' ' :: '(' :: (natDigits k ++ [')'])).drop [' '].length with
    | '(' :: more =>
      if (more.takeWhile Char.isDigit).isEmpty then none
      else
        match more.drop (more.takeWhile Char.isDigit).length with
        | [')'] => some (digitsToNat (more.takeWhile Char.isDigit))
        | _ => none
    | _ => none) = some k
  rw [show (' ' :: '(' :: (natDigits k ++ [')'])).drop [' '].length =
    '(' :: (natDigits k ++ [')']) from rfl]
  show (if ((natDigits k ++ [')']).takeWhile Char.isDigit).isEmpty then none
    else
      match (natDigits k ++ [')']).drop
          ((natDigits k ++ [')']).takeWhile Char.isDigit).length with
      | [')'] => some (digitsToNat ((natDigits k ++ [')']).takeWhile Char.isDigit))
      | _ => none) = some k
  rw [hds, if_neg (fun hemp => natDigits_ne_nil k (List.isEmpty_iff.mp hemp)),
    List.drop_left, digitsToNat_natDigits]
  rfl

theorem scanSuffix_canonical (base : List Char) (k : Nat) :
    scanSuffix base (base ++ [' ', '('] ++ natDigits k ++ [')']) = some k := by
  unfold scanSuffix
  have hshape : base ++ [' ', '('] ++ natDigits k ++ [')'] =
      (base ++ [' ', '(']) ++ (natDigits k ++ [')']) := by
    simp [List.append_assoc]
  rw [hshape, if_pos (isPrefixOf_append_self _ _)]
  have hdrop : ((base ++ [' ', '(']) ++ (natDigits k ++ [')'])).drop base.length =
      ' ' :: '(' :: (natDigits k ++ [')']) := by
    rw [List.append_assoc]
    exact List.drop_left base ([' ', '('] ++ (natDigits k ++ [')']))
  rw [hdrop, parseSuffixRest_canonical]

theorem le_foldl_max (f : List Char → Nat) (names : List (List Char)) :
    ∀ start : Nat, start ≤ names.foldl (fun m e => max m (f e)) start := by
  induction names with
  | nil => intro start; simp
  | cons x rest ih =>
    intro start
    rw [List.foldl_cons]
    exact le_trans (Nat.le_max_left start (f x)) (ih _)

theorem contrib_le_foldl_max (f : List Char → Nat) (names : List (List Char)) :
    ∀ (start : Nat) (e : List Char), e ∈ names →
      f e ≤ names.foldl (fun m e => max m (f e)) start := by
  induction names with
  | nil => intro start e he; simp at he
  | cons x rest ih =>
    intro start e he
    rw [List.foldl_cons]
    rcases List.mem_cons.mp he with rfl | hr
    · exact le_trans (Nat.le_max_right start (f e)) (le_foldl_max f rest _)
    · exact ih _ e hr

theorem string_mk_toList (s : String) : String.mk s.toList = s := rfl

/-- C8, counterexample.  The claim's formula — base obtained by stripping
a literal `" (N)"` suffix, max taken over existing names of the form
`base` or `base (N)` — disagrees with the source on a name whose suffix is
separated by two spaces: the source's own-suffix regex accepts any
whitespace run (`\s+`) and normalises it to a single space, while the
spec's formula keeps the extra space inside the base. -/
theorem resolve_whitespace_suffix_counterexample :
    resolve_duplicate_name "X  (5)"
      [{ name := "X  (5)", url := "http://zoo.example/x", window_size := none }] = "X (6)" ∧
    String.mk (specResolveDuplicate "X  (5)".toList ["X  (5)".toList]) = "X  (6)" ∧
    ("X (6)" : String) ≠ "X  (6)" :=
  ⟨by decide, by decide, by decide⟩

/-- C8, amended.  An unused name is returned unchanged.  For a used name
the result is `"{base} ({max+1})"`, where the base comes from the source's
own-suffix regex `^(.+?)\s+\((\d+)\)$` (any whitespace run before the
parenthesised number, normalised away), the running maximum starts from
the proposed name's own parsed suffix (or 1), and the scan counts an
existing name equal to the base as 1 and an existing single-space
`base (N)` as N.  The spec's two concrete examples hold: resolving
"Panda Cam" against {"Panda Cam"} gives "Panda Cam (2)", and against
{"Panda Cam", "Panda Cam (2)"} gives "Panda Cam (3)". -/
theorem resolve_duplicate_name_formula (name : String) (feeds : List Feed) :
    ((feeds.map (fun f => f.name.toList)).contains name.toList = false →
      resolve_duplicate_name name feeds = name) ∧
    ((feeds.map (fun f => f.name.toList)).contains name.toList = true →
      resolve_duplicate_name name feeds =
        String.mk (resolveBase name.toList ++ [' ', '('] ++
          natDigits (maxExistingSuffix (resolveBase name.toList) (resolveStart name.toList)
            (feeds.map (fun f => f.name.toList)) + 1) ++ [')'])) ∧
    resolve_duplicate_name "Panda Cam"
      [{ name := "Panda Cam", url := "http://zoo.example/1", window_size := none }] =
      "Panda Cam (2)" ∧
    resolve_duplicate_name "Panda Cam"
      [{ name := "Panda Cam", url := "http://zoo.example/1", window_size := none },
       { name := "Panda Cam (2)", url := "http://zoo.example/2", window_size := none }] =
      "Panda Cam (3)" := by
  refine ⟨?_, ?_, by decide, by decide⟩
  · intro h
    unfold resolve_duplicate_name resolveCore
    rw [h]
    exact string_mk_toList name
  · intro h
    unfold resolve_duplicate_name resolveCore
    rw [h]
    simp

/-- Witness for `resolve_duplicate_name_formula` at concrete inputs. -/
theorem resolve_duplicate_name_formula_witness :
    resolve_duplicate_name "Panda Cam"
      [{ name := "Panda Cam", url := "http://zoo.example/1", window_size := none }] =
      "Panda Cam (2)" ∧
    resolve_duplicate_name "Otter Live"
      [{ name := "Panda Cam", url := "http://zoo.example/1", window_size := none }] =
      "Otter Live" := by
  have h1 := (resolve_duplicate_name_formula "Panda Cam"
    [{ name := "Panda Cam", url := "http://zoo.example/1", window_size := none }]).2.1
    (by decide)
  have h2 := (resolve_duplicate_name_formula "Otter Live"
    [{ name := "Panda Cam", url := "http://zoo.example/1", window_size := none }]).1
    (by decide)
  exact ⟨h1.trans (by decide), h2⟩

/-- C9.  Uniqueness of the resolver: whenever the proposed name is already
used, the resolved name differs from every existing feed's name, so
inserting under the resolved name preserves name-uniqueness.  Proof: the
result has the exact shape `base ++ " (" ++ digits (M+1) ++ ")"`; were it
equal to some existing name, that name's scan contribution would be
`M + 1`, contradicting `M` being the fold maximum over all
contributions. -/
theorem resolve_duplicate_name_unique (name : String) (feeds : List Feed)
    (h : (feeds.map (fun f => f.name.toList)).contains name.toList = true) :
    ∀ f ∈ feeds, resolve_duplicate_name name feeds ≠ f.name := by
  intro f hf heq
  unfold resolve_duplicate_name at heq
  set names := feeds.map (fun g => g.name.toList) with hnames
  set base := resolveBase name.toList with hbase
  set M := maxExistingSuffix base (resolveStart name.toList) names with hM
  have hres : resolveCore name.toList names =
      base ++ [' ', '('] ++ natDigits (M + 1) ++ [')'] := by
    unfold resolveCore
    rw [h]
    rfl
  have heql : base ++ [' ', '('] ++ natDigits (M + 1) ++ [')'] = f.name.toList := by
    rw [← hres]
    calc resolveCore name.toList names
        = (String.mk (resolveCore name.toList names)).toList := rfl
      _ = f.name.toList := by rw [heq]
  have hmem : f.name.toList ∈ names := List.mem_map_of_mem _ hf
  have hcontrib : scanContrib base f.name.toList = M + 1 := by
    rw [← heql]
    unfold scanContrib
    rw [if_neg ?_, scanSuffix_canonical]
    intro hb
    have hlist : base ++ [' ', '('] ++ natDigits (M + 1) ++ [')'] = base := by
      exact eq_of_beq hb
    have := congrArg List.length hlist
    simp only [List.length_append, List.length_cons, List.length_nil] at this
    omega
  have hle : scanContrib base f.name.toList ≤ M := by
    rw [hM]
    unfold maxExistingSuffix
    exact contrib_le_foldl_max (fun e => scanContrib base e) names _ _ hmem
  omega

/-- Witness for `resolve_duplicate_name_unique` at a concrete input. -/
theorem resolve_duplicate_name_unique_witness :
    resolve_duplicate_name "Panda Cam"
      [{ name := "Panda Cam", url := "http://zoo.example/1", window_size := none }] ≠
      "Panda Cam" := by
  have h := resolve_duplicate_name_unique "Panda Cam"
    [{ name := "Panda Cam", url := "http://zoo.example/1", window_size := none }] (by decide)
  exact h { name := "Panda Cam", url := "http://zoo.example/1", window_size := none }
    (List.mem_singleton.mpr rfl)

/-- C10, counterexample.  With an unparseable config file, in-bounds
dimensions and a name that matches no stored feed, the update raises
`FeedNotFoundError` and performs no save — but the persisted content is
NOT unchanged: the `load_feeds` call inside the update has already
rebuilt the corrupt file as the empty well-formed document. -/
theorem update_window_size_counterexample :
    update_feed_window_size "Panda Cam" 320 240 SaveEnv.ok
        { config := FileState.file ConfigContent.unparseable, temp := none } =
      ({ config := emptyConfigFile, temp := none },
        Except.error UpdateError.feedNotFound) ∧
    emptyConfigFile ≠ FileState.file ConfigContent.unparseable :=
  ⟨by decide, by decide⟩

/-- C10, amended.  `validate_window_size` accepts exactly
320 ≤ width ≤ 7680 and 240 ≤ height ≤ 4320; out-of-bounds dimensions make
the update fail with `ValueError` before anything is touched; in-bounds
dimensions with no matching stored feed make it fail with
`FeedNotFoundError` with no save performed — the final state is the
post-`load_feeds` state for every write environment, which equals the
original content whenever the file was well-formed (load's recovery may
rewrite a corrupt, malformed or missing file to the empty well-formed
document first). -/
theorem update_window_size_contract (feedName : String) (w hgt : Int) (env : SaveEnv)
    (st : SaveFS) :
    (validate_window_size w hgt = true ↔
      (320 ≤ w ∧ w ≤ 7680 ∧ 240 ≤ hgt ∧ hgt ≤ 4320)) ∧
    (validate_window_size w hgt = false →
      update_feed_window_size feedName w hgt env st =
        (st, Except.error UpdateError.valueError)) ∧
    (validate_window_size w hgt = true →
      (load_feeds st.config).2.all (fun f => !(f.name == feedName)) = true →
      update_feed_window_size feedName w hgt env st =
        ({ config := (load_feeds st.config).1, temp := st.temp },
          Except.error UpdateError.feedNotFound)) ∧
    (∀ es : List RawEntry,
      st.config = FileState.file (ConfigContent.mapping (FeedsField.list es)) →
      (load_feeds st.config).1 = st.config) := by
  refine ⟨?_, ?_, ?_, ?_⟩
  · simp [validate_window_size, and_assoc]
  · intro hval
    simp [update_feed_window_size, hval]
  · intro hval hall
    simp [update_feed_window_size, hval, hall]
  · intro es hes
    rw [hes]
    rfl

/-- Witness for `update_window_size_contract` at concrete inputs. -/
theorem update_window_size_contract_witness :
    update_feed_window_size "Panda Cam" 100 100 SaveEnv.ok
        { config := emptyConfigFile, temp := none } =
      ({ config := emptyConfigFile, temp := none },
        Except.error UpdateError.valueError) ∧
    update_feed_window_size "Panda Cam" 320 240 SaveEnv.ok
        { config := emptyConfigFile, temp := none } =
      ({ config := emptyConfigFile, temp := none },
        Except.error UpdateError.feedNotFound) := by
  have h1 := (update_window_size_contract "Panda Cam" 100 100 SaveEnv.ok
    { config := emptyConfigFile, temp := none }).2.1 (by decide)
  have h2 := (update_window_size_contract "Panda Cam" 320 240 SaveEnv.ok
    { config := emptyConfigFile, temp := none }).2.2.1 (by decide) (by decide)
  exact ⟨h1, h2.trans (by decide)⟩

end PickAZoo
